import Mathlib

/-!
Shallow embedding of `src/mcp/shared/async_operations.py`: the server-side
async-operation registry of the MCP python SDK (operation records, the
status state machine, expiry, cleanup, and session-scoped cancellation).

Timestamps (`time.time()` values) are modelled as rationals; `keep_alive`
is an `Int` as in the source (a Python `int`).  The operations dictionary
is modelled as an association list in insertion order, matching the
ordered-dict semantics of a Python `dict`: assignment to an existing key
overwrites in place, assignment to a fresh key appends, deletion removes
the (unique) entry for a key.
-/

/-- Statuses from the literal type `mcp.types.AsyncOperationStatus`
as used by the source. -/
inductive AsyncOperationStatus where
  | submitted
  | working
  | input_required
  | completed
  | failed
  | canceled
  | unknown
deriving DecidableEq, Repr

/-- Result payload `mcp.types.CallToolResult`, opaque to the registry: the
source stores and returns it without inspecting it. -/
structure CallToolResult where
  payload : String
deriving DecidableEq, Repr

/-- Record type for the `ServerAsyncOperation` dataclass. The field
`arguments` is a `dict[str, Any]` whose values the registry never
inspects; we model it with opaque string values. -/
structure ServerAsyncOperation where
  token : String
  tool_name : String
  arguments : List (String × String)
  status : AsyncOperationStatus
  created_at : ℚ
  keep_alive : Int
  resolved_at : Option ℚ := none
  session_id : Option String := none
  result : Option CallToolResult := none
  error : Option String := none
deriving DecidableEq, Repr

namespace ServerAsyncOperation

/-- Property `ServerAsyncOperation.is_expired`.  The guard
`not self.resolved_at` is Python truthiness: it holds both for `None` and for `0.0`, so a record
whose `resolved_at` is the number zero is treated as unresolved. -/
def is_expired (op : ServerAsyncOperation) (now : ℚ) : Bool :=
  match op.resolved_at with
  | none => false
  | some t =>
    if t = 0 then false
    else if op.status = .completed ∨ op.status = .failed ∨ op.status = .canceled then
      decide (now > t + (op.keep_alive : ℚ))
    else false

/-- Property `ServerAsyncOperation.is_terminal`. -/
def is_terminal (op : ServerAsyncOperation) : Bool :=
  op.status = .completed ∨ op.status = .failed ∨ op.status = .canceled ∨
    op.status = .unknown

end ServerAsyncOperation

/-- State of a `ServerAsyncOperationManager`: the `_operations` dict, as
an association list in insertion order. -/
structure ServerAsyncOperationManager where
  operations : List (String × ServerAsyncOperation)
deriving DecidableEq, Repr

namespace ServerAsyncOperationManager

/-- Method `_get_operation` / `get_operation`: dict lookup. -/
def get_operation (m : ServerAsyncOperationManager) (token : String) :
    Option ServerAsyncOperation :=
  (m.operations.find? (fun p => p.1 == token)).map (·.2)

/-- Method `_set_operation`: dict assignment — overwrite in place when the key is
present, append otherwise. -/
def set_operation (m : ServerAsyncOperationManager) (token : String)
    (op : ServerAsyncOperation) : ServerAsyncOperationManager :=
  if m.operations.any (fun p => p.1 == token) then
    ⟨m.operations.map (fun p => if p.1 == token then (token, op) else p)⟩
  else
    ⟨m.operations ++ [(token, op)]⟩

/-- Method `_remove_operation` as a state update: `dict.pop(token, None)` removes
the entry for the key when present. -/
def remove_operation_state (m : ServerAsyncOperationManager) (token : String) :
    ServerAsyncOperationManager :=
  ⟨m.operations.eraseP (fun p => p.1 == token)⟩

/-- Method `remove_operation`: pop and report whether anything was there. -/
def remove_operation (m : ServerAsyncOperationManager) (token : String) :
    Bool × ServerAsyncOperationManager :=
  match m.get_operation token with
  | none => (false, m)
  | some _ => (true, m.remove_operation_state token)

/-- Method `create_operation`.  Here `gen_token` is the value returned by
`self.generate_token(session_id)` (the pluggable token generator is an
external effect; its output is passed in), and `now` is `time.time()`. -/
def create_operation (m : ServerAsyncOperationManager) (gen_token : String)
    (tool_name : String) (arguments : List (String × String))
    (keep_alive : Int) (session_id : Option String) (now : ℚ) :
    ServerAsyncOperation × ServerAsyncOperationManager :=
  let op : ServerAsyncOperation :=
    { token := gen_token
      tool_name := tool_name
      arguments := arguments
      status := .submitted
      created_at := now
      keep_alive := keep_alive
      session_id := session_id }
  (op, m.set_operation gen_token op)

/-- Method `mark_working`: only from `submitted`. -/
def mark_working (m : ServerAsyncOperationManager) (token : String) :
    Bool × ServerAsyncOperationManager :=
  match m.get_operation token with
  | none => (false, m)
  | some op =>
    if op.status ≠ .submitted then (false, m)
    else (true, m.set_operation token { op with status := .working })

/-- Method `complete_operation`: only from `submitted` or `working`; stores the
result and stamps `resolved_at` with `time.time()` (`now`). -/
def complete_operation (m : ServerAsyncOperationManager) (token : String)
    (result : CallToolResult) (now : ℚ) : Bool × ServerAsyncOperationManager :=
  match m.get_operation token with
  | none => (false, m)
  | some op =>
    if ¬(op.status = .submitted ∨ op.status = .working) then (false, m)
    else
      (true, m.set_operation token
        { op with status := .completed, result := some result, resolved_at := some now })

/-- Method `fail_operation`: only from `submitted` or `working`; stores the error
and stamps `resolved_at`. -/
def fail_operation (m : ServerAsyncOperationManager) (token : String)
    (error : String) (now : ℚ) : Bool × ServerAsyncOperationManager :=
  match m.get_operation token with
  | none => (false, m)
  | some op =>
    if ¬(op.status = .submitted ∨ op.status = .working) then (false, m)
    else
      (true, m.set_operation token
        { op with status := .failed, error := some error, resolved_at := some now })

/-- Method `get_operation_result`: the stored result, only when status is exactly
`completed`.  Pure lookup — the source reads and never writes. -/
def get_operation_result (m : ServerAsyncOperationManager) (token : String) :
    Option CallToolResult :=
  match m.get_operation token with
  | none => none
  | some op => if op.status ≠ .completed then none else op.result

/-- Method `cancel_operation`: only from `submitted` or `working`; sets the
status and nothing else (no `resolved_at`). -/
def cancel_operation (m : ServerAsyncOperationManager) (token : String) :
    Bool × ServerAsyncOperationManager :=
  match m.get_operation token with
  | none => (false, m)
  | some op =>
    if ¬(op.status = .submitted ∨ op.status = .working) then (false, m)
    else (true, m.set_operation token { op with status := .canceled })

/-- Method `cleanup_expired` (the identical `cleanup_expired_operations` deletes
the same keys with `del`): first collect the tokens of expired records,
then remove each, and return how many were collected. -/
def cleanup_expired (m : ServerAsyncOperationManager) (now : ℚ) :
    Nat × ServerAsyncOperationManager :=
  let expired_tokens :=
    (m.operations.filter (fun p => p.2.is_expired now)).map (·.1)
  (expired_tokens.length,
    expired_tokens.foldl (fun acc tok => acc.remove_operation_state tok) m)

/-- Method `get_session_operations`: records whose `session_id` equals the given
session id (`None == session_id` is false in Python, since the argument is
a `str`). -/
def get_session_operations (m : ServerAsyncOperationManager)
    (session_id : String) : List ServerAsyncOperation :=
  (m.operations.filter (fun p => p.2.session_id == some session_id)).map (·.2)

/-- Method `cancel_session_operations`: every matching non-terminal record gets
status `canceled` (the Python mutates the shared record objects in the
dict) and is counted. -/
def cancel_session_operations (m : ServerAsyncOperationManager)
    (session_id : String) : Nat × ServerAsyncOperationManager :=
  ((m.operations.filter (fun p =>
      p.2.session_id == some session_id && !p.2.is_terminal)).length,
    ⟨m.operations.map (fun p =>
      if p.2.session_id == some session_id && !p.2.is_terminal
      then (p.1, { p.2 with status := .canceled }) else p)⟩)

/-- Method `mark_input_required`: only from `submitted` or `working`. -/
def mark_input_required (m : ServerAsyncOperationManager) (token : String) :
    Bool × ServerAsyncOperationManager :=
  match m.get_operation token with
  | none => (false, m)
  | some op =>
    if ¬(op.status = .submitted ∨ op.status = .working) then (false, m)
    else (true, m.set_operation token { op with status := .input_required })

/-- Method `mark_input_completed`: only from `input_required`, back to `working`. -/
def mark_input_completed (m : ServerAsyncOperationManager) (token : String) :
    Bool × ServerAsyncOperationManager :=
  match m.get_operation token with
  | none => (false, m)
  | some op =>
    if op.status ≠ .input_required then (false, m)
    else (true, m.set_operation token { op with status := .working })

end ServerAsyncOperationManager

/-- Events are the state-changing manager methods, with the values of the
external effects (`time.time()`, the token generator) recorded as data;
a trace of events reaches exactly the manager states reachable through
the methods. -/
inductive ManagerEvent where
  | createOp (gen_token tool_name : String) (arguments : List (String × String))
      (keep_alive : Int) (session_id : Option String) (now : ℚ)
  | markWorking (token : String)
  | markInputRequired (token : String)
  | markInputCompleted (token : String)
  | completeOp (token : String) (result : CallToolResult) (now : ℚ)
  | failOp (token : String) (error : String) (now : ℚ)
  | cancelOp (token : String)
  | cancelSession (session_id : String)
  | cleanup (now : ℚ)
  | removeOp (token : String)
deriving DecidableEq, Repr

/-- Run one manager method, keeping the state and discarding the returned
value. -/
def apply_event (m : ServerAsyncOperationManager) :
    ManagerEvent → ServerAsyncOperationManager
  | .createOp t tn args ka sid now => (m.create_operation t tn args ka sid now).2
  | .markWorking t => (m.mark_working t).2
  | .markInputRequired t => (m.mark_input_required t).2
  | .markInputCompleted t => (m.mark_input_completed t).2
  | .completeOp t res now => (m.complete_operation t res now).2
  | .failOp t err now => (m.fail_operation t err now).2
  | .cancelOp t => (m.cancel_operation t).2
  | .cancelSession sid => (m.cancel_session_operations sid).2
  | .cleanup now => (m.cleanup_expired now).2
  | .removeOp t => (m.remove_operation t).2

/-- Manager state after a trace of method calls, starting from the freshly
constructed manager (empty dict). -/
def run_events (es : List ManagerEvent) : ServerAsyncOperationManager :=
  es.foldl apply_event ⟨[]⟩

/-- Per-record invariant maintained by every manager method: `resolved_at`
is set exactly on the resolving statuses `completed`/`failed`, `result`
exactly on `completed`, `error` exactly on `failed`. -/
def record_ok (op : ServerAsyncOperation) : Prop :=
  (op.resolved_at.isSome = true ↔
      (op.status = .completed ∨ op.status = .failed)) ∧
  (op.result.isSome = true ↔ op.status = .completed) ∧
  (op.error.isSome = true ↔ op.status = .failed)

/-- Manager invariant: dict keys are unique, and every stored record
satisfies the per-record invariant. -/
def manager_ok (m : ServerAsyncOperationManager) : Prop :=
  (m.operations.map (·.1)).Nodup ∧ ∀ p ∈ m.operations, record_ok p.2

/-- Manager holding one freshly created operation, token `t1`. -/
def mgr_created : ServerAsyncOperationManager :=
  ((⟨[]⟩ : ServerAsyncOperationManager).create_operation
    "t1" "add" [("a", "1")] 3600 none 0).2

/-- The record stored in `mgr_created`. -/
def rec_created : ServerAsyncOperation :=
  { token := "t1", tool_name := "add", arguments := [("a", "1")],
    status := .submitted, created_at := 0, keep_alive := 3600 }

/-- State of `mgr_created` after `cancel_operation "t1"`. -/
def mgr_canceled : ServerAsyncOperationManager :=
  (mgr_created.cancel_operation "t1").2

/-- A completed record whose `resolved_at` is the timestamp zero: Python
truthiness makes `is_expired` treat it as unresolved. -/
def rec_resolved_at_zero : ServerAsyncOperation :=
  { token := "t0", tool_name := "add", arguments := [],
    status := .completed, created_at := 0, keep_alive := 0,
    resolved_at := some 0, result := some ⟨"r"⟩ }

/-- A completed record resolved at time 5 with a 2-second keep-alive. -/
def rec_resolved_at_five : ServerAsyncOperation :=
  { token := "t5", tool_name := "add", arguments := [],
    status := .completed, created_at := 1, keep_alive := 2,
    resolved_at := some 5, result := some ⟨"r"⟩ }

/-- A completed record, already resolved at time 1. -/
def rec_completed : ServerAsyncOperation :=
  { token := "t1", tool_name := "add", arguments := [],
    status := .completed, created_at := 0, keep_alive := 3600,
    resolved_at := some 1, result := some ⟨"r"⟩ }

/-- Manager holding one completed record (already resolved), used to
exercise the rejected-transition paths. -/
def mgr_completed : ServerAsyncOperationManager :=
  ⟨[("t1", rec_completed)]⟩

/-- The record of `mgr_created` after its cancellation. -/
def rec_canceled : ServerAsyncOperation :=
  { token := "t1", tool_name := "add", arguments := [("a", "1")],
    status := .canceled, created_at := 0, keep_alive := 3600 }

/-- Working record owned by session `s1`. -/
def rec_s1_working : ServerAsyncOperation :=
  { token := "t1", tool_name := "add", arguments := [],
    status := .working, created_at := 0, keep_alive := 10,
    session_id := some "s1" }

/-- Completed (terminal) record owned by session `s1`. -/
def rec_s1_completed : ServerAsyncOperation :=
  { token := "t2", tool_name := "add", arguments := [],
    status := .completed, created_at := 0, keep_alive := 10,
    resolved_at := some 1, result := some ⟨"r"⟩,
    session_id := some "s1" }

/-- Submitted record owned by session `s2`. -/
def rec_s2_submitted : ServerAsyncOperation :=
  { token := "t3", tool_name := "add", arguments := [],
    status := .submitted, created_at := 0, keep_alive := 10,
    session_id := some "s2" }

/-- Manager with records of two sessions in assorted statuses, for the
session-cancellation claim. -/
def mgr_sessions : ServerAsyncOperationManager :=
  ⟨[("t1", rec_s1_working), ("t2", rec_s1_completed), ("t3", rec_s2_submitted)]⟩

/-- Trace that creates one operation and completes it at time 2. -/
def trace_completed : List ManagerEvent :=
  [.createOp "t1" "add" [("a", "1")] 3600 none 0, .completeOp "t1" ⟨"r"⟩ 2]

/-- The record reached by `trace_completed`. -/
def rec_t1_completed : ServerAsyncOperation :=
  { token := "t1", tool_name := "add", arguments := [("a", "1")],
    status := .completed, created_at := 0, keep_alive := 3600,
    resolved_at := some 2, result := some ⟨"r"⟩ }

/-- Trace that creates one operation and fails it at time 2. -/
def trace_failed : List ManagerEvent :=
  [.createOp "t1" "add" [("a", "1")] 3600 none 0, .failOp "t1" "boom" 2]

/-- The record reached by `trace_failed`. -/
def rec_t1_failed : ServerAsyncOperation :=
  { token := "t1", tool_name := "add", arguments := [("a", "1")],
    status := .failed, created_at := 0, keep_alive := 3600,
    resolved_at := some 2, error := some "boom" }

namespace ServerAsyncOperationManager

theorem find?_map_update (l : List (String × ServerAsyncOperation))
    (tok : String) (op : ServerAsyncOperation)
    (h : l.any (fun p => p.1 == tok) = true) :
    (l.map (fun p => if p.1 == tok then (tok, op) else p)).find?
      (fun p => p.1 == tok) = some (tok, op) := by
  induction l with
  | nil => simp at h
  | cons x xs ih =>
    by_cases hx : (x.1 == tok) = true
    · simp only [List.map_cons, if_pos hx]
      exact List.find?_cons_of_pos _ (by simp)
    · simp only [List.map_cons, if_neg hx]
      have step :
          List.find? (fun p => p.1 == tok)
              (x :: List.map (fun p => if p.1 == tok then (tok, op) else p) xs)
            = List.find? (fun p => p.1 == tok)
                (List.map (fun p => if p.1 == tok then (tok, op) else p) xs) :=
        List.find?_cons_of_neg _ hx
      rw [step]
      apply ih
      simp only [List.any_cons, hx, Bool.false_or] at h
      exact h

theorem get_operation_set_self (m : ServerAsyncOperationManager)
    (tok : String) (op : ServerAsyncOperation) :
    (m.set_operation tok op).get_operation tok = some op := by
  unfold set_operation get_operation
  by_cases h : m.operations.any (fun p => p.1 == tok) = true
  · simp only [if_pos h, find?_map_update m.operations tok op h, Option.map_some']
  · simp only [if_neg h]
    have hnone : m.operations.find? (fun p => p.1 == tok) = none := by
      rw [List.find?_eq_none]
      intro x hx hpx
      exact h (List.any_eq_true.mpr ⟨x, hx, hpx⟩)
    rw [List.find?_append, hnone, Option.none_or,
      List.find?_cons_of_pos _ (by simp)]
    rfl

theorem mem_operations_set (m : ServerAsyncOperationManager)
    (tok : String) (op : ServerAsyncOperation) :
    ∀ q ∈ (m.set_operation tok op).operations,
      q = (tok, op) ∨ q ∈ m.operations := by
  intro q hq
  unfold set_operation at hq
  by_cases h : m.operations.any (fun p => p.1 == tok) = true
  · rw [if_pos h] at hq
    obtain ⟨p, hp, hpq⟩ := List.mem_map.mp hq
    by_cases hpk : (p.1 == tok) = true
    · left; rw [if_pos hpk] at hpq; exact hpq.symm
    · right; rw [if_neg hpk] at hpq; exact hpq ▸ hp
  · rw [if_neg h] at hq
    rcases List.mem_append.mp hq with hq | hq
    · right; exact hq
    · left; simpa using hq

theorem keys_set_of_any (m : ServerAsyncOperationManager)
    (tok : String) (op : ServerAsyncOperation)
    (h : m.operations.any (fun p => p.1 == tok) = true) :
    (m.set_operation tok op).operations.map (·.1) = m.operations.map (·.1) := by
  unfold set_operation
  rw [if_pos h, List.map_map]
  apply List.map_congr_left
  intro p _
  by_cases hpk : (p.1 == tok) = true
  · simp only [Function.comp_apply, if_pos hpk]
    exact (eq_of_beq hpk).symm
  · simp only [Function.comp_apply, if_neg hpk]

theorem nodup_keys_set (m : ServerAsyncOperationManager)
    (tok : String) (op : ServerAsyncOperation)
    (h : (m.operations.map (·.1)).Nodup) :
    ((m.set_operation tok op).operations.map (·.1)).Nodup := by
  by_cases hany : m.operations.any (fun p => p.1 == tok) = true
  · rw [keys_set_of_any m tok op hany]; exact h
  · unfold set_operation
    rw [if_neg hany, List.map_append]
    rw [List.nodup_append]
    refine ⟨h, List.nodup_singleton tok, ?_⟩
    intro a ha hb
    simp only [List.map_cons, List.map_nil, List.mem_singleton] at hb
    subst hb
    obtain ⟨p, hp, hpk⟩ := List.mem_map.mp ha
    exact hany (List.any_eq_true.mpr ⟨p, hp, by simp [hpk]⟩)

theorem get_operation_mem (m : ServerAsyncOperationManager)
    (tok : String) (op : ServerAsyncOperation)
    (h : m.get_operation tok = some op) : (tok, op) ∈ m.operations := by
  unfold get_operation at h
  obtain ⟨q, hq, hq2⟩ := Option.map_eq_some'.mp h
  have hbeq : (q.1 == tok) = true := by
    have hp := List.find?_some hq
    simpa using hp
  have hk : q.1 = tok := eq_of_beq hbeq
  have hmem := List.mem_of_find?_eq_some hq
  have : q = (tok, op) := by
    cases q; simp_all
  exact this ▸ hmem

end ServerAsyncOperationManager

namespace ServerAsyncOperationManager

theorem eraseP_key_eq_filter (l : List (String × ServerAsyncOperation))
    (t : String) (h : (l.map (·.1)).Nodup) :
    l.eraseP (fun p => p.1 == t) = l.filter (fun p => !(p.1 == t)) := by
  induction l with
  | nil => simp
  | cons x xs ih =>
    simp only [List.map_cons, List.nodup_cons] at h
    by_cases hx : (x.1 == t) = true
    · have e1 : List.eraseP (fun p => p.1 == t) (x :: xs) = xs :=
        List.eraseP_cons_of_pos hx
      rw [e1]
      have hxt : x.1 = t := eq_of_beq hx
      have hall : xs.filter (fun p => !(p.1 == t)) = xs := by
        rw [List.filter_eq_self]
        intro p hp
        have hne : p.1 ≠ t := by
          intro hcontra
          exact h.1 (hxt ▸ hcontra ▸ List.mem_map.mpr ⟨p, hp, rfl⟩)
        simp [hne]
      rw [List.filter_cons_of_neg (by simp [hx]), hall]
    · have e2 : List.eraseP (fun p => p.1 == t) (x :: xs)
          = x :: List.eraseP (fun p => p.1 == t) xs :=
        List.eraseP_cons_of_neg hx
      rw [e2, List.filter_cons_of_pos (by simp [hx]), ih h.2]

theorem keys_sublist_of_sublist {l l' : List (String × ServerAsyncOperation)}
    (h : l'.Sublist l) : (l'.map (·.1)).Sublist (l.map (·.1)) :=
  h.map _

theorem foldl_remove_eq_filter (ts : List String)
    (m : ServerAsyncOperationManager)
    (h : (m.operations.map (·.1)).Nodup) :
    (ts.foldl (fun acc tok => acc.remove_operation_state tok) m).operations
      = m.operations.filter (fun p => !(ts.contains p.1)) := by
  induction ts generalizing m with
  | nil => simp
  | cons t ts ih =>
    rw [List.foldl_cons]
    have hstep : (m.remove_operation_state t).operations
        = m.operations.filter (fun p => !(p.1 == t)) :=
      eraseP_key_eq_filter m.operations t h
    have hnodup : ((m.remove_operation_state t).operations.map (·.1)).Nodup :=
      (keys_sublist_of_sublist (List.eraseP_sublist _)).nodup h
    rw [ih (m.remove_operation_state t) hnodup, hstep, List.filter_filter]
    apply List.filter_congr
    intro p _
    simp only [List.contains_cons, Bool.not_or]
    rw [Bool.and_comm]

theorem cleanup_expired_operations_eq_filter (m : ServerAsyncOperationManager)
    (now : ℚ) (h : (m.operations.map (·.1)).Nodup) :
    (m.cleanup_expired now).2.operations
      = m.operations.filter (fun p => !(p.2.is_expired now)) := by
  unfold cleanup_expired
  simp only
  rw [foldl_remove_eq_filter _ m h]
  apply List.filter_congr
  intro p hp
  congr 1
  by_cases hexp : p.2.is_expired now = true
  · rw [hexp]
    have hmemf : p ∈ m.operations.filter (fun q => q.2.is_expired now) :=
      List.mem_filter.mpr ⟨hp, hexp⟩
    have hmem : p.1 ∈ (m.operations.filter
        (fun q => q.2.is_expired now)).map (·.1) :=
      List.mem_map.mpr ⟨p, hmemf, rfl⟩
    exact List.contains_iff_exists_mem_beq.mpr ⟨p.1, hmem, by simp⟩
  · rw [Bool.eq_false_iff.mpr hexp]
    rw [Bool.eq_false_iff]
    intro hcon
    obtain ⟨a, ha, hab⟩ := List.contains_iff_exists_mem_beq.mp hcon
    obtain ⟨q, hq, hq1⟩ := List.mem_map.mp ha
    have hqmem := (List.mem_filter.mp hq).1
    have hqexp := (List.mem_filter.mp hq).2
    have hkeys : q.1 = p.1 := by rw [hq1, ← eq_of_beq hab]
    have hqp : q = p := List.inj_on_of_nodup_map h hqmem hp hkeys
    exact hexp (hqp ▸ hqexp)

end ServerAsyncOperationManager

theorem record_ok_fields_none (op : ServerAsyncOperation) (h : record_ok op)
    (hs : ¬(op.status = .completed ∨ op.status = .failed)) :
    op.resolved_at = none ∧ op.result = none ∧ op.error = none := by
  obtain ⟨h1, h2, h3⟩ := h
  refine ⟨?_, ?_, ?_⟩
  · exact Option.not_isSome_iff_eq_none.mp (fun hh => hs (h1.mp hh))
  · exact Option.not_isSome_iff_eq_none.mp (fun hh => hs (Or.inl (h2.mp hh)))
  · exact Option.not_isSome_iff_eq_none.mp (fun hh => hs (Or.inr (h3.mp hh)))

theorem manager_ok_set (m : ServerAsyncOperationManager) (tok : String)
    (op : ServerAsyncOperation) (hm : manager_ok m) (hop : record_ok op) :
    manager_ok (m.set_operation tok op) := by
  constructor
  · exact ServerAsyncOperationManager.nodup_keys_set m tok op hm.1
  · intro q hq
    rcases ServerAsyncOperationManager.mem_operations_set m tok op q hq with h | h
    · rw [h]; exact hop
    · exact hm.2 q h

theorem foldl_remove_sublist (ts : List String)
    (m : ServerAsyncOperationManager) :
    ((ts.foldl (fun acc tok => acc.remove_operation_state tok) m).operations).Sublist
      m.operations := by
  induction ts generalizing m with
  | nil => exact List.Sublist.refl _
  | cons t ts ih =>
    rw [List.foldl_cons]
    exact (ih (m.remove_operation_state t)).trans (List.eraseP_sublist _)

theorem manager_ok_of_sublist (m m' : ServerAsyncOperationManager)
    (h : m'.operations.Sublist m.operations) (hm : manager_ok m) :
    manager_ok m' := by
  constructor
  · exact (h.map (·.1)).nodup hm.1
  · intro q hq
    exact hm.2 q (h.mem hq)

theorem manager_ok_apply (m : ServerAsyncOperationManager) (e : ManagerEvent)
    (hm : manager_ok m) : manager_ok (apply_event m e) := by
  cases e with
  | createOp t tn args ka sid now =>
    exact manager_ok_set m t _ hm (by simp [record_ok])
  | markWorking t =>
    simp only [apply_event]
    cases hg : m.get_operation t with
    | none => simp only [ServerAsyncOperationManager.mark_working, hg]; exact hm
    | some op =>
      simp only [ServerAsyncOperationManager.mark_working, hg]
      by_cases hs : op.status = .submitted
      · rw [if_neg (not_not_intro hs)]
        have hok := hm.2 _ (ServerAsyncOperationManager.get_operation_mem m t op hg)
        have hnone := record_ok_fields_none op hok (by simp [hs])
        refine manager_ok_set m t _ hm ?_
        simp [record_ok, hnone.1, hnone.2.1, hnone.2.2]
      · rw [if_pos hs]
        exact hm
  | markInputRequired t =>
    simp only [apply_event]
    cases hg : m.get_operation t with
    | none => simp only [ServerAsyncOperationManager.mark_input_required, hg]; exact hm
    | some op =>
      simp only [ServerAsyncOperationManager.mark_input_required, hg]
      by_cases hs : op.status = .submitted ∨ op.status = .working
      · rw [if_neg (not_not_intro hs)]
        have hok := hm.2 _ (ServerAsyncOperationManager.get_operation_mem m t op hg)
        have hnone := record_ok_fields_none op hok
          (by rcases hs with hs | hs <;> simp [hs])
        refine manager_ok_set m t _ hm ?_
        simp [record_ok, hnone.1, hnone.2.1, hnone.2.2]
      · rw [if_pos hs]
        exact hm
  | markInputCompleted t =>
    simp only [apply_event]
    cases hg : m.get_operation t with
    | none => simp only [ServerAsyncOperationManager.mark_input_completed, hg]; exact hm
    | some op =>
      simp only [ServerAsyncOperationManager.mark_input_completed, hg]
      by_cases hs : op.status = .input_required
      · rw [if_neg (not_not_intro hs)]
        have hok := hm.2 _ (ServerAsyncOperationManager.get_operation_mem m t op hg)
        have hnone := record_ok_fields_none op hok (by simp [hs])
        refine manager_ok_set m t _ hm ?_
        simp [record_ok, hnone.1, hnone.2.1, hnone.2.2]
      · rw [if_pos hs]
        exact hm
  | completeOp t res now =>
    simp only [apply_event]
    cases hg : m.get_operation t with
    | none => simp only [ServerAsyncOperationManager.complete_operation, hg]; exact hm
    | some op =>
      simp only [ServerAsyncOperationManager.complete_operation, hg]
      by_cases hs : op.status = .submitted ∨ op.status = .working
      · rw [if_neg (not_not_intro hs)]
        have hok := hm.2 _ (ServerAsyncOperationManager.get_operation_mem m t op hg)
        have hnone := record_ok_fields_none op hok
          (by rcases hs with hs | hs <;> simp [hs])
        refine manager_ok_set m t _ hm ?_
        simp [record_ok, hnone.2.2]
      · rw [if_pos hs]
        exact hm
  | failOp t err now =>
    simp only [apply_event]
    cases hg : m.get_operation t with
    | none => simp only [ServerAsyncOperationManager.fail_operation, hg]; exact hm
    | some op =>
      simp only [ServerAsyncOperationManager.fail_operation, hg]
      by_cases hs : op.status = .submitted ∨ op.status = .working
      · rw [if_neg (not_not_intro hs)]
        have hok := hm.2 _ (ServerAsyncOperationManager.get_operation_mem m t op hg)
        have hnone := record_ok_fields_none op hok
          (by rcases hs with hs | hs <;> simp [hs])
        refine manager_ok_set m t _ hm ?_
        simp [record_ok, hnone.2.1]
      · rw [if_pos hs]
        exact hm
  | cancelOp t =>
    simp only [apply_event]
    cases hg : m.get_operation t with
    | none => simp only [ServerAsyncOperationManager.cancel_operation, hg]; exact hm
    | some op =>
      simp only [ServerAsyncOperationManager.cancel_operation, hg]
      by_cases hs : op.status = .submitted ∨ op.status = .working
      · rw [if_neg (not_not_intro hs)]
        have hok := hm.2 _ (ServerAsyncOperationManager.get_operation_mem m t op hg)
        have hnone := record_ok_fields_none op hok
          (by rcases hs with hs | hs <;> simp [hs])
        refine manager_ok_set m t _ hm ?_
        simp [record_ok, hnone.1, hnone.2.1, hnone.2.2]
      · rw [if_pos hs]
        exact hm
  | cancelSession sid =>
    simp only [apply_event, ServerAsyncOperationManager.cancel_session_operations]
    constructor
    · have hkeys :
          (m.operations.map (fun p =>
            if p.2.session_id == some sid && !p.2.is_terminal
            then (p.1, { p.2 with status := .canceled }) else p)).map (·.1)
            = m.operations.map (·.1) := by
        rw [List.map_map]
        apply List.map_congr_left
        intro p _
        simp only [Function.comp_apply]
        split <;> rfl
      rw [hkeys]
      exact hm.1
    · intro q hq
      obtain ⟨p, hp, hpq⟩ := List.mem_map.mp hq
      by_cases hc : (p.2.session_id == some sid && !p.2.is_terminal) = true
      · rw [if_pos hc] at hpq
        have hterm : p.2.is_terminal = false := by
          simp only [Bool.and_eq_true, Bool.not_eq_true'] at hc
          exact hc.2
        have hnotcf : ¬(p.2.status = .completed ∨ p.2.status = .failed) := by
          simp only [ServerAsyncOperation.is_terminal] at hterm
          intro hcf
          rcases hcf with hcf | hcf <;> simp [hcf] at hterm
        have hnone := record_ok_fields_none p.2 (hm.2 p hp) hnotcf
        rw [← hpq]
        simp [record_ok, hnone.1, hnone.2.1, hnone.2.2]
      · rw [if_neg hc] at hpq
        rw [← hpq]
        exact hm.2 p hp
  | cleanup now =>
    simp only [apply_event]
    apply manager_ok_of_sublist m _ _ hm
    unfold ServerAsyncOperationManager.cleanup_expired
    exact foldl_remove_sublist _ m
  | removeOp t =>
    simp only [apply_event]
    cases hg : m.get_operation t with
    | none => simp only [ServerAsyncOperationManager.remove_operation, hg]; exact hm
    | some op =>
      simp only [ServerAsyncOperationManager.remove_operation, hg]
      exact manager_ok_of_sublist m _ (List.eraseP_sublist _) hm

theorem manager_ok_foldl (es : List ManagerEvent)
    (m : ServerAsyncOperationManager) (hm : manager_ok m) :
    manager_ok (es.foldl apply_event m) := by
  induction es generalizing m with
  | nil => exact hm
  | cons e es ih => exact ih _ (manager_ok_apply m e hm)

theorem manager_ok_run (es : List ManagerEvent) : manager_ok (run_events es) := by
  apply manager_ok_foldl
  constructor
  · simp
  · intro p hp
    simp at hp

theorem length_filter_add_length_filter_not {α : Type}
    (l : List α) (p : α → Bool) :
    (l.filter p).length + (l.filter (fun a => !(p a))).length = l.length := by
  induction l with
  | nil => rfl
  | cons x xs ih =>
    by_cases hx : p x = true
    · rw [List.filter_cons_of_pos hx, List.filter_cons_of_neg (by simp [hx])]
      simp only [List.length_cons]
      omega
    · rw [List.filter_cons_of_neg hx,
        List.filter_cons_of_pos (by simp [Bool.eq_false_iff.mpr hx])]
      simp only [List.length_cons]
      omega

/-- C8 (amended): a completed server record with `resolved_at = T ≠ 0` and
`keep_alive = K` is expired exactly for query times strictly greater than
`T + K`; for `T = 0` Python truthiness makes the record never expired. -/
theorem c8_is_expired_completed_iff (op : ServerAsyncOperation) (T now : ℚ)
    (hst : op.status = .completed) (hres : op.resolved_at = some T)
    (hT : T ≠ 0) :
    op.is_expired now = true ↔ now > T + (op.keep_alive : ℚ) := by
  simp [ServerAsyncOperation.is_expired, hres, hst, hT]

/-- Witness for C8 (amended): resolved at 5 with keep-alive 2, the record
is expired at time 8. -/
theorem c8_witness :
    rec_resolved_at_five.status = .completed ∧
    rec_resolved_at_five.resolved_at = some 5 ∧
    (5 : ℚ) ≠ 0 ∧
    rec_resolved_at_five.is_expired 8 = true := by
  refine ⟨rfl, rfl, by norm_num, ?_⟩
  exact (c8_is_expired_completed_iff rec_resolved_at_five 5 8 rfl rfl
    (by norm_num)).mpr (by norm_num [rec_resolved_at_five])

/-- C8 counterexample: a completed record with `resolved_at = 0` and
`keep_alive = 0` is queried at time `1 > 0 + 0`; the claim says expired,
the code reports not expired (`not self.resolved_at` is true for `0.0`). -/
theorem c8_counterexample :
    rec_resolved_at_zero.status = .completed ∧
    rec_resolved_at_zero.resolved_at = some 0 ∧
    (1 : ℚ) > 0 + (rec_resolved_at_zero.keep_alive : ℚ) ∧
    rec_resolved_at_zero.is_expired 1 = false := by
  refine ⟨rfl, rfl, by norm_num [rec_resolved_at_zero], ?_⟩
  simp [ServerAsyncOperation.is_expired, rec_resolved_at_zero]

/-- C9: a record canceled through `cancel_operation` keeps `resolved_at`
null, its `is_expired` is false at every time, and `cleanup_expired` never
removes it from any map with unique keys that contains it. -/
theorem c9_canceled_never_reaped (m m' M : ServerAsyncOperationManager)
    (tok : String) (op' : ServerAsyncOperation) (now : ℚ)
    (_hc : m.cancel_operation tok = (true, m'))
    (_hop : m'.get_operation tok = some op')
    (hres : op'.resolved_at = none)
    (hN : (M.operations.map (·.1)).Nodup)
    (hmem : (tok, op') ∈ M.operations) :
    op'.is_expired now = false ∧
      (tok, op') ∈ (M.cleanup_expired now).2.operations := by
  have hexp : op'.is_expired now = false := by
    simp [ServerAsyncOperation.is_expired, hres]
  refine ⟨hexp, ?_⟩
  rw [ServerAsyncOperationManager.cleanup_expired_operations_eq_filter M now hN]
  exact List.mem_filter.mpr ⟨hmem, by simp [hexp]⟩

/-- Witness for C9: the canceled record of `mgr_canceled` survives a
cleanup pass at a far-future time. -/
theorem c9_witness :
    rec_canceled.is_expired 999999 = false ∧
      ("t1", rec_canceled) ∈ (mgr_canceled.cleanup_expired 999999).2.operations :=
  c9_canceled_never_reaped mgr_created mgr_canceled mgr_canceled "t1"
    rec_canceled 999999 (by decide) (by decide) (by decide) (by decide)
    (by decide)

/-- C1: every transition method called on an unknown token, or on a record
whose current status is outside the method's allowed source set, returns
`false` and leaves the whole operations map unchanged (the model is a
total function, so no exception is possible). -/
theorem c1_invalid_transition_rejected (m : ServerAsyncOperationManager)
    (tok : String) (res : CallToolResult) (err : String) (now : ℚ) :
    (Option.all (fun op => op.status != .submitted)
        (m.get_operation tok) = true →
      m.mark_working tok = (false, m)) ∧
    (Option.all (fun op => !(op.status == .submitted || op.status == .working))
        (m.get_operation tok) = true →
      m.mark_input_required tok = (false, m)) ∧
    (Option.all (fun op => op.status != .input_required)
        (m.get_operation tok) = true →
      m.mark_input_completed tok = (false, m)) ∧
    (Option.all (fun op => !(op.status == .submitted || op.status == .working))
        (m.get_operation tok) = true →
      m.complete_operation tok res now = (false, m)) ∧
    (Option.all (fun op => !(op.status == .submitted || op.status == .working))
        (m.get_operation tok) = true →
      m.fail_operation tok err now = (false, m)) ∧
    (Option.all (fun op => !(op.status == .submitted || op.status == .working))
        (m.get_operation tok) = true →
      m.cancel_operation tok = (false, m)) := by
  refine ⟨?_, ?_, ?_, ?_, ?_, ?_⟩
  · intro h
    cases hg : m.get_operation tok with
    | none => simp [ServerAsyncOperationManager.mark_working, hg]
    | some op =>
      rw [hg] at h
      have hne : op.status ≠ .submitted := by simpa using h
      simp [ServerAsyncOperationManager.mark_working, hg, hne]
  · intro h
    cases hg : m.get_operation tok with
    | none => simp [ServerAsyncOperationManager.mark_input_required, hg]
    | some op =>
      rw [hg] at h
      have hne : ¬(op.status = .submitted ∨ op.status = .working) := by
        simpa using h
      simp [ServerAsyncOperationManager.mark_input_required, hg, hne]
  · intro h
    cases hg : m.get_operation tok with
    | none => simp [ServerAsyncOperationManager.mark_input_completed, hg]
    | some op =>
      rw [hg] at h
      have hne : op.status ≠ .input_required := by simpa using h
      simp [ServerAsyncOperationManager.mark_input_completed, hg, hne]
  · intro h
    cases hg : m.get_operation tok with
    | none => simp [ServerAsyncOperationManager.complete_operation, hg]
    | some op =>
      rw [hg] at h
      have hne : ¬(op.status = .submitted ∨ op.status = .working) := by
        simpa using h
      simp [ServerAsyncOperationManager.complete_operation, hg, hne]
  · intro h
    cases hg : m.get_operation tok with
    | none => simp [ServerAsyncOperationManager.fail_operation, hg]
    | some op =>
      rw [hg] at h
      have hne : ¬(op.status = .submitted ∨ op.status = .working) := by
        simpa using h
      simp [ServerAsyncOperationManager.fail_operation, hg, hne]
  · intro h
    cases hg : m.get_operation tok with
    | none => simp [ServerAsyncOperationManager.cancel_operation, hg]
    | some op =>
      rw [hg] at h
      have hne : ¬(op.status = .submitted ∨ op.status = .working) := by
        simpa using h
      simp [ServerAsyncOperationManager.cancel_operation, hg, hne]

/-- Witness for C1: every transition method rejects on a record already
completed, leaving the manager unchanged. -/
theorem c1_witness :
    mgr_completed.mark_working "t1" = (false, mgr_completed) ∧
    mgr_completed.mark_input_required "t1" = (false, mgr_completed) ∧
    mgr_completed.mark_input_completed "t1" = (false, mgr_completed) ∧
    mgr_completed.complete_operation "t1" ⟨"x"⟩ 7 = (false, mgr_completed) ∧
    mgr_completed.fail_operation "t1" "e" 7 = (false, mgr_completed) ∧
    mgr_completed.cancel_operation "t1" = (false, mgr_completed) := by
  obtain ⟨h1, h2, h3, h4, h5, h6⟩ :=
    c1_invalid_transition_rejected mgr_completed "t1" ⟨"x"⟩ "e" 7
  exact ⟨h1 (by decide), h2 (by decide), h3 (by decide), h4 (by decide),
    h5 (by decide), h6 (by decide)⟩

/-- C4: from `submitted` or `working`, `complete_operation` returns `true`
and stores status `completed`, the given result and `resolved_at = now`;
`fail_operation` returns `true` and stores status `failed`, the given
error and `resolved_at = now`. -/
theorem c4_complete_fail_resolve (m : ServerAsyncOperationManager)
    (tok : String) (op : ServerAsyncOperation) (res : CallToolResult)
    (err : String) (now : ℚ)
    (hget : m.get_operation tok = some op)
    (hst : op.status = .submitted ∨ op.status = .working) :
    m.complete_operation tok res now =
      (true, m.set_operation tok
        { op with status := .completed, result := some res,
                  resolved_at := some now }) ∧
    (m.complete_operation tok res now).2.get_operation tok =
      some { op with status := .completed, result := some res,
                     resolved_at := some now } ∧
    m.fail_operation tok err now =
      (true, m.set_operation tok
        { op with status := .failed, error := some err,
                  resolved_at := some now }) ∧
    (m.fail_operation tok err now).2.get_operation tok =
      some { op with status := .failed, error := some err,
                     resolved_at := some now } := by
  have hc : m.complete_operation tok res now =
      (true, m.set_operation tok
        { op with status := .completed, result := some res,
                  resolved_at := some now }) := by
    simp only [ServerAsyncOperationManager.complete_operation, hget]
    rw [if_neg (not_not_intro hst)]
  have hf : m.fail_operation tok err now =
      (true, m.set_operation tok
        { op with status := .failed, error := some err,
                  resolved_at := some now }) := by
    simp only [ServerAsyncOperationManager.fail_operation, hget]
    rw [if_neg (not_not_intro hst)]
  refine ⟨hc, ?_, hf, ?_⟩
  · rw [hc]
    exact ServerAsyncOperationManager.get_operation_set_self m tok _
  · rw [hf]
    exact ServerAsyncOperationManager.get_operation_set_self m tok _

/-- Witness for C4: completing the freshly created operation stores the
result and the resolution time. -/
theorem c4_witness :
    mgr_created.get_operation "t1" = some rec_created ∧
    (rec_created.status = .submitted ∨ rec_created.status = .working) ∧
    (mgr_created.complete_operation "t1" (CallToolResult.mk "r") 3).2.get_operation
        "t1" =
      some { rec_created with
              status := .completed,
              result := some (CallToolResult.mk "r"),
              resolved_at := some 3 } :=
  ⟨by decide, by decide,
    (c4_complete_fail_resolve mgr_created "t1" rec_created
      (CallToolResult.mk "r") "e" 3 (by decide) (by decide)).2.1⟩

/-- C5: in every manager state reachable through the methods,
`get_operation_result` returns a non-null result exactly when a record for
the token exists with status exactly `completed`; it is a pure lookup. -/
theorem c5_get_operation_result_iff (es : List ManagerEvent) (tok : String) :
    ((run_events es).get_operation_result tok).isSome = true ↔
      ∃ op, (run_events es).get_operation tok = some op ∧
        op.status = .completed := by
  cases hg : (run_events es).get_operation tok with
  | none => simp [ServerAsyncOperationManager.get_operation_result, hg]
  | some op =>
    by_cases hs : op.status = .completed
    · have hok := (manager_ok_run es).2 _
        (ServerAsyncOperationManager.get_operation_mem _ tok op hg)
      have hres : op.result.isSome = true := hok.2.1.mpr hs
      simp [ServerAsyncOperationManager.get_operation_result, hg, hs, hres]
    · simp [ServerAsyncOperationManager.get_operation_result, hg, hs]

/-- C6: on a map with unique keys, one `cleanup_expired` call keeps
exactly the records not expired at call time (in order, unchanged),
removes exactly the expired ones, and returns the number removed. -/
theorem c6_cleanup_expired_exact (m : ServerAsyncOperationManager) (now : ℚ)
    (hN : (m.operations.map (·.1)).Nodup) :
    (m.cleanup_expired now).2.operations
        = m.operations.filter (fun p => !(p.2.is_expired now)) ∧
    (m.cleanup_expired now).1
        = (m.operations.filter (fun p => p.2.is_expired now)).length ∧
    (m.cleanup_expired now).1 + (m.cleanup_expired now).2.operations.length
        = m.operations.length := by
  have h1 := ServerAsyncOperationManager.cleanup_expired_operations_eq_filter
    m now hN
  have h2 : (m.cleanup_expired now).1
      = (m.operations.filter (fun p => p.2.is_expired now)).length := by
    unfold ServerAsyncOperationManager.cleanup_expired
    simp
  refine ⟨h1, h2, ?_⟩
  rw [h1, h2]
  exact length_filter_add_length_filter_not m.operations
    (fun p => p.2.is_expired now)

/-- Witness for C6 on the two-record manager `mgr_sessions` (nothing is
expired there, so the count is zero and the map survives whole). -/
theorem c6_witness :
    (mgr_sessions.operations.map (·.1)).Nodup ∧
    (mgr_sessions.cleanup_expired 100).2.operations
        = mgr_sessions.operations.filter (fun p => !(p.2.is_expired 100)) ∧
    (mgr_sessions.cleanup_expired 100).1
        = (mgr_sessions.operations.filter (fun p => p.2.is_expired 100)).length :=
  ⟨by decide,
    (c6_cleanup_expired_exact mgr_sessions 100 (by decide)).1,
    (c6_cleanup_expired_exact mgr_sessions 100 (by decide)).2.1⟩

/-- C7: `cancel_session_operations sid` counts and cancels exactly the
non-terminal records of session `sid`; keys and their order are
untouched, records of other sessions or already terminal stay identical. -/
theorem c7_cancel_session_exact (m : ServerAsyncOperationManager)
    (sid : String) :
    (m.cancel_session_operations sid).1
        = m.operations.countP (fun p =>
            p.2.session_id == some sid && !p.2.is_terminal) ∧
    (m.cancel_session_operations sid).2.operations.map (·.1)
        = m.operations.map (·.1) ∧
    ∀ tok op, (tok, op) ∈ m.operations →
      ((op.session_id = some sid ∧ op.is_terminal = false) →
        (tok, { op with status := .canceled })
          ∈ (m.cancel_session_operations sid).2.operations) ∧
      (¬(op.session_id = some sid ∧ op.is_terminal = false) →
        (tok, op) ∈ (m.cancel_session_operations sid).2.operations) := by
  refine ⟨?_, ?_, ?_⟩
  · simp [ServerAsyncOperationManager.cancel_session_operations,
      List.countP_eq_length_filter]
  · simp only [ServerAsyncOperationManager.cancel_session_operations]
    rw [List.map_map]
    apply List.map_congr_left
    intro p _
    simp only [Function.comp_apply]
    split <;> rfl
  · intro tok op hmem
    constructor
    · intro hc
      have hcb : (op.session_id == some sid && !op.is_terminal) = true := by
        simp [hc.1, hc.2]
      simp only [ServerAsyncOperationManager.cancel_session_operations]
      refine List.mem_map.mpr ⟨(tok, op), hmem, ?_⟩
      rw [if_pos hcb]
    · intro hc
      have hcb : ¬((op.session_id == some sid && !op.is_terminal) = true) := by
        intro hb
        apply hc
        simp only [Bool.and_eq_true, beq_iff_eq, Bool.not_eq_true'] at hb
        exact hb
      simp only [ServerAsyncOperationManager.cancel_session_operations]
      refine List.mem_map.mpr ⟨(tok, op), hmem, ?_⟩
      rw [if_neg hcb]

/-- Witness for C7: in `mgr_sessions`, canceling session `s1` cancels the
working record, keeps the completed record of `s1` and the record of
`s2` intact. -/
theorem c7_witness :
    ("t1", { rec_s1_working with status := .canceled })
        ∈ (mgr_sessions.cancel_session_operations "s1").2.operations ∧
    ("t2", rec_s1_completed)
        ∈ (mgr_sessions.cancel_session_operations "s1").2.operations ∧
    ("t3", rec_s2_submitted)
        ∈ (mgr_sessions.cancel_session_operations "s1").2.operations :=
  ⟨((c7_cancel_session_exact mgr_sessions "s1").2.2 "t1" rec_s1_working
      (by decide)).1 (by decide),
   ((c7_cancel_session_exact mgr_sessions "s1").2.2 "t2" rec_s1_completed
      (by decide)).2 (by decide),
   ((c7_cancel_session_exact mgr_sessions "s1").2.2 "t3" rec_s2_submitted
      (by decide)).2 (by decide)⟩

/-- C10: when the token generator hands `create_operation` a token already
present, the new `submitted` record silently replaces the old one: the
key set is unchanged (nothing added), and lookup now yields the fresh
record, making the old record (and its stored result or error)
unreachable. -/
theorem c10_create_operation_overwrites (m : ServerAsyncOperationManager)
    (tok tool : String) (args : List (String × String)) (ka : Int)
    (sid : Option String) (now : ℚ) (old : ServerAsyncOperation)
    (hget : m.get_operation tok = some old) :
    (m.create_operation tok tool args ka sid now).1
        = { token := tok, tool_name := tool, arguments := args,
            status := .submitted, created_at := now, keep_alive := ka,
            resolved_at := none, session_id := sid, result := none,
            error := none } ∧
    (m.create_operation tok tool args ka sid now).2.get_operation tok
        = some (m.create_operation tok tool args ka sid now).1 ∧
    (m.create_operation tok tool args ka sid now).2.operations.map (·.1)
        = m.operations.map (·.1) := by
  refine ⟨rfl, ?_, ?_⟩
  · exact ServerAsyncOperationManager.get_operation_set_self m tok _
  · have hany : m.operations.any (fun p => p.1 == tok) = true := by
      have hmem := ServerAsyncOperationManager.get_operation_mem m tok old hget
      exact List.any_eq_true.mpr ⟨(tok, old), hmem, by simp⟩
    exact ServerAsyncOperationManager.keys_set_of_any m tok _ hany

/-- Witness for C10: re-creating token `t1` over the completed record of
`mgr_completed` replaces it and adds no entry. -/
theorem c10_witness :
    (mgr_completed.create_operation "t1" "add" [] 3600 none 9).2.get_operation
        "t1"
      = some (mgr_completed.create_operation "t1" "add" [] 3600 none 9).1 ∧
    (mgr_completed.create_operation "t1" "add" [] 3600 none 9).2.operations.map
        (·.1)
      = mgr_completed.operations.map (·.1) :=
  ⟨(c10_create_operation_overwrites mgr_completed "t1" "add" [] 3600 none 9
      rec_completed (by decide)).2.1,
   (c10_create_operation_overwrites mgr_completed "t1" "add" [] 3600 none 9
      rec_completed (by decide)).2.2⟩

/-- C2 counterexample: `cancel_operation` succeeds (a terminal transition,
the record's status is now `canceled`), yet `resolved_at` is still null —
refuting "resolved_at non-null iff at least one terminal transition". -/
theorem c2_counterexample :
    (mgr_created.cancel_operation "t1").1 = true ∧
    (mgr_canceled.get_operation "t1").map (·.status)
        = some AsyncOperationStatus.canceled ∧
    (mgr_canceled.get_operation "t1").map (·.resolved_at) = some none := by
  decide

/-- C2 (amended): in every reachable manager state, `resolved_at` is
non-null iff the record's status is `completed` or `failed` — that is,
iff it has undergone `complete_operation` or `fail_operation`; the
cancel transitions leave `resolved_at` null. -/
theorem c2_resolved_at_iff_resolving_transition (es : List ManagerEvent)
    (p : String × ServerAsyncOperation)
    (hp : p ∈ (run_events es).operations) :
    p.2.resolved_at.isSome = true ↔
      (p.2.status = .completed ∨ p.2.status = .failed) :=
  ((manager_ok_run es).2 p hp).1

/-- Witness for C2 (amended): the completed record of `trace_completed`
has a non-null `resolved_at`. -/
theorem c2_witness :
    ("t1", rec_t1_completed) ∈ (run_events trace_completed).operations ∧
    (rec_t1_completed.resolved_at.isSome = true ↔
      (rec_t1_completed.status = .completed ∨
        rec_t1_completed.status = .failed)) :=
  ⟨by decide,
    c2_resolved_at_iff_resolving_transition trace_completed
      ("t1", rec_t1_completed) (by decide)⟩

/-- C3 counterexample: after a successful `cancel_operation` the record
has undergone a terminal transition (status `canceled`), yet both
`result` and `error` are null — refuting "exactly one of result/error is
populated once the record has undergone a terminal transition". -/
theorem c3_counterexample :
    (mgr_created.cancel_operation "t1").1 = true ∧
    (mgr_canceled.get_operation "t1").map (·.status)
        = some AsyncOperationStatus.canceled ∧
    (mgr_canceled.get_operation "t1").map (·.result) = some none ∧
    (mgr_canceled.get_operation "t1").map (·.error) = some none := by
  decide

/-- C3 (amended): in every reachable manager state, a `completed` record
holds a result and no error, a `failed` record holds an error and no
result, and any other record (including `canceled` ones) holds neither. -/
theorem c3_result_error_population (es : List ManagerEvent)
    (p : String × ServerAsyncOperation)
    (hp : p ∈ (run_events es).operations) :
    (p.2.status = .completed →
      p.2.result.isSome = true ∧ p.2.error = none) ∧
    (p.2.status = .failed →
      p.2.error.isSome = true ∧ p.2.result = none) ∧
    (¬(p.2.status = .completed ∨ p.2.status = .failed) →
      p.2.result = none ∧ p.2.error = none) := by
  obtain ⟨h1, h2, h3⟩ := (manager_ok_run es).2 p hp
  refine ⟨?_, ?_, ?_⟩
  · intro hc
    refine ⟨h2.mpr hc, ?_⟩
    apply Option.not_isSome_iff_eq_none.mp
    intro hh
    have hf := h3.mp hh
    rw [hc] at hf
    exact absurd hf (by decide)
  · intro hf
    refine ⟨h3.mpr hf, ?_⟩
    apply Option.not_isSome_iff_eq_none.mp
    intro hh
    have hc := h2.mp hh
    rw [hf] at hc
    exact absurd hc (by decide)
  · intro hnc
    have hr := record_ok_fields_none p.2 ⟨h1, h2, h3⟩ hnc
    exact ⟨hr.2.1, hr.2.2⟩

/-- Witness for C3 (amended): the failed record of `trace_failed` holds
an error and no result. -/
theorem c3_witness :
    ("t1", rec_t1_failed) ∈ (run_events trace_failed).operations ∧
    (rec_t1_failed.error.isSome = true ∧ rec_t1_failed.result = none) :=
  ⟨by decide,
    (c3_result_error_population trace_failed ("t1", rec_t1_failed)
      (by decide)).2.1 (by decide)⟩
